import Mathlib

/-!
Shallow embedding of the LC-oscillator simulation (src/model.py, src/solver.py)
and verification of the specification's claims about it.

Numeric values are embedded as rationals (exact arithmetic); the formulas the
integrators compute translate verbatim.  A separate small embedding with IEEE
special values (`NPFloat`, below) is used for the claims about division-by-zero
behaviour, where the distinction between a raised exception and a returned
inf/nan value is the whole point.
-/

/-- Model of `np.arange(start, stop, step)` in exact arithmetic: the points
`start, start + step, start + 2*step, …` lying in the half-open interval
`[start, stop)`; its length is `⌈(stop - start) / step⌉` (numpy documents
`ceil((stop - start)/step)` as the length for a positive step).  For a
non-positive direction the ceiling is non-positive and the list is empty;
the `step = 0` error case (numpy raises) is outside the claims considered. -/
def arange (start stop step : ℚ) : List ℚ :=
  (List.range (Int.toNat ⌈(stop - start) / step⌉)).map
    (fun (i : ℕ) => start + (i : ℚ) * step)

/-- Embedding of `LCOscillatorModel` (src/model.py): physical parameters,
initial condition, and the state history (`self.state`), a list of stored
pairs `(current, -L * naturalSecond)` seeded with the raw initial values. -/
structure LCOscillatorModel where
  inductance : ℚ
  capacitance : ℚ
  initial_current : ℚ
  initial_voltage : ℚ
  state : List (ℚ × ℚ)
  deriving Repr, DecidableEq

/-- Embeds `LCOscillatorModel.__init__`: stores the parameters and seeds the history
with the single raw entry `(initial_current, initial_voltage)` — no transform
and no parameter validation is performed in the source constructor. -/
def LCOscillatorModel.init (L C i0 v0 : ℚ) : LCOscillatorModel :=
  { inductance := L
    capacitance := C
    initial_current := i0
    initial_voltage := v0
    state := [(i0, v0)] }

/-- Embeds `LCOscillatorModel.add_new_state`: appends `(y0, -inductance * y1)` to the
history. -/
def LCOscillatorModel.add_new_state (m : LCOscillatorModel) (new_state_y : ℚ × ℚ) :
    LCOscillatorModel :=
  { m with state := m.state ++ [(new_state_y.1, -m.inductance * new_state_y.2)] }

/-- Embeds `LCOscillatorModel.get_last_state`, i.e. `self.state[-1]`.  The history is
never empty in any reachable state (the constructor seeds one entry), so the
default is never hit. -/
def LCOscillatorModel.get_last_state (m : LCOscillatorModel) : ℚ × ℚ :=
  m.state.getLastD (0, 0)

/-- Embeds `LCOscillatorModel.get_last_state_y`: the natural-coordinate view
`(y0, -y1 / inductance)` of the last stored entry. -/
def LCOscillatorModel.get_last_state_y (m : LCOscillatorModel) : ℚ × ℚ :=
  (m.get_last_state.1, -m.get_last_state.2 / m.inductance)

/-- Embeds `LCOscillatorModel.last_equation_y`: `-y0 / (inductance * capacitance)`
where `y0` is the first natural coordinate of the last state. -/
def LCOscillatorModel.last_equation_y (m : LCOscillatorModel) : ℚ :=
  -m.get_last_state_y.1 / (m.inductance * m.capacitance)

/-- Embeds the time grid of `SolverInterface.__init__`:
`np.arange(0, simulation_time, step_size)`. -/
def time_steps (step_size simulation_time : ℚ) : List ℚ :=
  arange 0 simulation_time step_size

/-- Loop body value of `SimpleEulerSolver.solve`: the natural-coordinate
`new_state` computed from the latest state before it is appended. -/
def natOutEuler (dt : ℚ) (m : LCOscillatorModel) : ℚ × ℚ :=
  let last_state := m.get_last_state_y
  (last_state.1 + last_state.2 * dt,
   last_state.2 + m.last_equation_y * dt)

/-- One iteration of `SimpleEulerSolver.solve`'s loop. -/
def SimpleEulerSolver.step (dt : ℚ) : LCOscillatorModel → LCOscillatorModel :=
  fun m => m.add_new_state (natOutEuler dt m)

/-- Embeds `SimpleEulerSolver.solve`: one step per time-grid point (the loop variable
is unused in the source; only the grid length matters). -/
def SimpleEulerSolver.solve (dt T : ℚ) (m : LCOscillatorModel) : LCOscillatorModel :=
  (time_steps dt T).foldl (fun acc _ => SimpleEulerSolver.step dt acc) m

/-- Embeds `y_2_new_func` inside `BackwardEulerSolver.solve`. -/
def y_2_new_func (dt L C y_1_old y_2_old : ℚ) : ℚ :=
  let a := 1 / (1 + dt ^ 2 / (L * C))
  let b := dt / (L * C)
  a * y_2_old - b * y_1_old

/-- Loop body value of `BackwardEulerSolver.solve`. -/
def natOutBackward (dt : ℚ) (m : LCOscillatorModel) : ℚ × ℚ :=
  let last_state := m.get_last_state_y
  let y_2_new := y_2_new_func dt m.inductance m.capacitance last_state.1 last_state.2
  let y_1_new := last_state.1 + y_2_new * dt
  (y_1_new, y_2_new)

/-- One iteration of `BackwardEulerSolver.solve`'s loop. -/
def BackwardEulerSolver.step (dt : ℚ) : LCOscillatorModel → LCOscillatorModel :=
  fun m => m.add_new_state (natOutBackward dt m)

/-- Embeds `BackwardEulerSolver.solve`. -/
def BackwardEulerSolver.solve (dt T : ℚ) (m : LCOscillatorModel) : LCOscillatorModel :=
  (time_steps dt T).foldl (fun acc _ => BackwardEulerSolver.step dt acc) m

/-- Embeds `y_new` inside `SimpleRungeKutta.solve`: per-coordinate 4-stage update
with the frozen value `y_func`. -/
def y_new (dt y_old y_func : ℚ) : ℚ :=
  let k_1 := y_func
  let k_2 := y_func + dt * k_1 / 2
  let k_3 := y_func + dt * k_2 / 2
  let k_4 := y_func + dt * k_3
  let y_delta := dt * (k_1 + 2 * k_2 + 2 * k_3 + k_4) / 6
  y_old + y_delta

/-- Loop body value of `SimpleRungeKutta.solve`. -/
def natOutRK (dt : ℚ) (m : LCOscillatorModel) : ℚ × ℚ :=
  let last_state := m.get_last_state_y
  (y_new dt last_state.1 last_state.2,
   y_new dt last_state.2 (-last_state.1 / (m.inductance * m.capacitance)))

/-- One iteration of `SimpleRungeKutta.solve`'s loop. -/
def SimpleRungeKutta.step (dt : ℚ) : LCOscillatorModel → LCOscillatorModel :=
  fun m => m.add_new_state (natOutRK dt m)

/-- Embeds `SimpleRungeKutta.solve`. -/
def SimpleRungeKutta.solve (dt T : ℚ) (m : LCOscillatorModel) : LCOscillatorModel :=
  (time_steps dt T).foldl (fun acc _ => SimpleRungeKutta.step dt acc) m

/-- Rationals extended with the IEEE special values of numpy float64, for
the claims where the difference between a raised exception and a returned
inf/nan matters.  Signed zeros are not modelled; they affect only the sign
of an infinity produced by a division, never whether the result is finite
or whether an exception is raised. -/
inductive NPFloat : Type
  | fin (q : ℚ)
  | posInf
  | negInf
  | nan
  deriving Repr, DecidableEq

/-- True exactly on non-special values. -/
def NPFloat.isFinite : NPFloat → Bool
  | fin _ => true
  | _ => false

/-- IEEE negation. -/
def NPFloat.neg : NPFloat → NPFloat
  | fin q => fin (-q)
  | posInf => negInf
  | negInf => posInf
  | nan => nan

/-- IEEE multiplication (sign of zero not tracked). -/
def NPFloat.mul : NPFloat → NPFloat → NPFloat
  | nan, _ => nan
  | _, nan => nan
  | fin a, fin b => fin (a * b)
  | fin a, posInf => if a = 0 then nan else if 0 < a then posInf else negInf
  | fin a, negInf => if a = 0 then nan else if 0 < a then negInf else posInf
  | posInf, fin b => if b = 0 then nan else if 0 < b then posInf else negInf
  | negInf, fin b => if b = 0 then nan else if 0 < b then negInf else posInf
  | posInf, posInf => posInf
  | posInf, negInf => negInf
  | negInf, posInf => negInf
  | negInf, negInf => posInf

/-- IEEE division: a nonzero finite numerator over zero gives a signed
infinity, `0/0` gives nan — no exception in either case. -/
def NPFloat.div : NPFloat → NPFloat → NPFloat
  | nan, _ => nan
  | _, nan => nan
  | fin a, fin b =>
      if b ≠ 0 then fin (a / b)
      else if a = 0 then nan
      else if 0 < a then posInf else negInf
  | fin _, posInf => fin 0
  | fin _, negInf => fin 0
  | posInf, fin b => if 0 ≤ b then posInf else negInf
  | negInf, fin b => if 0 ≤ b then negInf else posInf
  | posInf, posInf => nan
  | posInf, negInf => nan
  | negInf, posInf => nan
  | negInf, negInf => nan

/-- The Python exception relevant to the model module's divisions. -/
inductive PyError : Type
  | zeroDivisionError
  deriving Repr, DecidableEq

/-- Division as it executes in `model.py`: the numerator is an element of a
numpy array (a `numpy.float64`), so numpy semantics govern — division by
zero does not raise `ZeroDivisionError`; it emits a `RuntimeWarning` and
returns an IEEE infinity or nan.  (A plain-Python float division would
raise, but that path does not occur in the source, whose numerators are
always array elements.) -/
def npDiv (a b : NPFloat) : Except PyError NPFloat :=
  Except.ok (a.div b)

/-- The model re-embedded with numpy-float values, used only for
the error-semantics claims: same constructor and accessors, with divisions
going through `npDiv` so that a raised exception, were one possible, would
surface as `Except.error`. -/
structure ModelF where
  inductance : NPFloat
  capacitance : NPFloat
  initial_current : NPFloat
  initial_voltage : NPFloat
  state : List (NPFloat × NPFloat)
  deriving Repr, DecidableEq

/-- Embeds `LCOscillatorModel.__init__` over numpy floats. -/
def ModelF.init (L C i0 v0 : NPFloat) : ModelF :=
  { inductance := L
    capacitance := C
    initial_current := i0
    initial_voltage := v0
    state := [(i0, v0)] }

/-- Embeds `self.state[-1]` over numpy floats. -/
def ModelF.get_last_state (m : ModelF) : NPFloat × NPFloat :=
  m.state.getLastD (NPFloat.nan, NPFloat.nan)

/-- Embeds `LCOscillatorModel.get_last_state_y` over numpy floats. -/
def ModelF.get_last_state_y (m : ModelF) : Except PyError (NPFloat × NPFloat) := do
  let s := m.get_last_state
  let second ← npDiv s.2.neg m.inductance
  pure (s.1, second)

/-- Embeds `LCOscillatorModel.last_equation_y` over numpy floats. -/
def ModelF.last_equation_y (m : ModelF) : Except PyError NPFloat := do
  let last_state ← m.get_last_state_y
  npDiv last_state.1.neg (m.inductance.mul m.capacitance)

section Lemmas

/-- The grid has `⌈T / Δt⌉` points. -/
theorem time_steps_length (dt T : ℚ) :
    (time_steps dt T).length = Int.toNat ⌈T / dt⌉ := by
  unfold time_steps arange
  rw [List.length_map, List.length_range, sub_zero]

/-- A fold whose body ignores the list elements is an iterate of the body. -/
theorem foldl_const_eq_iterate {α β : Type} (f : β → β) (l : List α) (b : β) :
    l.foldl (fun acc _ => f acc) b = f^[l.length] b := by
  induction l generalizing b with
  | nil => rfl
  | cons x xs ih => simpa [Function.iterate_succ_apply] using ih (f b)

/-- Appending never changes the physical parameters. -/
theorem add_new_state_inductance (m : LCOscillatorModel) (n : ℚ × ℚ) :
    (m.add_new_state n).inductance = m.inductance := rfl

/-- The natural view of a freshly appended state recovers its input
(the stored transform round-trips) whenever the inductance is nonzero. -/
theorem get_last_state_y_add_new_state (m : LCOscillatorModel) (n : ℚ × ℚ)
    (hL : m.inductance ≠ 0) :
    (m.add_new_state n).get_last_state_y = n := by
  unfold LCOscillatorModel.add_new_state LCOscillatorModel.get_last_state_y
    LCOscillatorModel.get_last_state
  simp only [List.getLastD_concat]
  obtain ⟨a, b⟩ := n
  simp only [Prod.mk.injEq]
  refine ⟨trivial, ?_⟩
  field_simp

/-- Iterating any append-based step leaves the inductance unchanged. -/
theorem iterate_step_inductance (out : LCOscillatorModel → ℚ × ℚ) (k : ℕ)
    (m : LCOscillatorModel) :
    ((fun mm => mm.add_new_state (out mm))^[k] m).inductance = m.inductance := by
  induction k generalizing m with
  | zero => rfl
  | succ k ih =>
    rw [Function.iterate_succ_apply]
    exact ih _

/-- Closed form of the history after `k` append-based steps: the original
history followed by the stored transform of each step's natural output. -/
theorem iterate_step_state (out : LCOscillatorModel → ℚ × ℚ) (k : ℕ)
    (m : LCOscillatorModel) :
    ((fun mm => mm.add_new_state (out mm))^[k] m).state =
      m.state ++ (List.range k).map (fun j =>
        let mj := (fun mm => mm.add_new_state (out mm))^[j] m
        ((out mj).1, -m.inductance * (out mj).2)) := by
  induction k with
  | zero => simp
  | succ k ih =>
    rw [Function.iterate_succ_apply']
    show (((fun mm => mm.add_new_state (out mm))^[k] m).add_new_state _).state = _
    rw [LCOscillatorModel.add_new_state]
    simp only [ih, iterate_step_inductance, List.range_succ, List.map_append,
      List.map_cons, List.map_nil, List.append_assoc]

/-- Each step appends exactly one entry. -/
theorem iterate_step_state_length (out : LCOscillatorModel → ℚ × ℚ) (k : ℕ)
    (m : LCOscillatorModel) :
    ((fun mm => mm.add_new_state (out mm))^[k] m).state.length =
      m.state.length + k := by
  rw [iterate_step_state]
  simp

/-- The last state read back from an all-zero history is zero (also for the
unreachable empty history, whose read default is zero). -/
theorem get_last_state_zero (m : LCOscillatorModel)
    (h : ∀ p ∈ m.state, p = ((0 : ℚ), (0 : ℚ))) :
    m.get_last_state = (0, 0) := by
  unfold LCOscillatorModel.get_last_state
  rcases eq_or_ne m.state [] with he | he
  · rw [he]; rfl
  · rw [List.getLastD_eq_getLast?, List.getLast?_eq_getLast _ he]
    exact h _ (List.getLast_mem he)

/-- Natural view of an all-zero history is zero. -/
theorem get_last_state_y_zero (m : LCOscillatorModel)
    (h : ∀ p ∈ m.state, p = ((0 : ℚ), (0 : ℚ))) :
    m.get_last_state_y = (0, 0) := by
  unfold LCOscillatorModel.get_last_state_y
  rw [get_last_state_zero m h]
  norm_num

/-- Derivative term of an all-zero history is zero. -/
theorem last_equation_y_zero (m : LCOscillatorModel)
    (h : ∀ p ∈ m.state, p = ((0 : ℚ), (0 : ℚ))) :
    m.last_equation_y = 0 := by
  unfold LCOscillatorModel.last_equation_y
  rw [get_last_state_y_zero m h]
  norm_num

/-- A solver loop whose per-step natural output is zero on all-zero
histories preserves the all-zero history invariant. -/
theorem foldl_step_zero (out : LCOscillatorModel → ℚ × ℚ)
    (hout : ∀ mm : LCOscillatorModel,
      (∀ p ∈ mm.state, p = ((0 : ℚ), (0 : ℚ))) → out mm = (0, 0))
    (l : List ℚ) (m : LCOscillatorModel)
    (hm : ∀ p ∈ m.state, p = ((0 : ℚ), (0 : ℚ))) :
    ∀ p ∈ (l.foldl (fun acc _ => acc.add_new_state (out acc)) m).state,
      p = ((0 : ℚ), (0 : ℚ)) := by
  induction l generalizing m with
  | nil => exact hm
  | cons x xs ih =>
    refine ih _ ?_
    intro p hp
    simp only [LCOscillatorModel.add_new_state, hout m hm] at hp
    simp only [List.mem_append, List.mem_singleton] at hp
    rcases hp with hp | hp
    · exact hm p hp
    · rw [hp]; norm_num

/-- Closed form of the explicit-Euler history after `Solve()`. -/
theorem euler_solve_state (dt T : ℚ) (m : LCOscillatorModel) :
    (SimpleEulerSolver.solve dt T m).state =
      m.state ++ (List.range (time_steps dt T).length).map (fun j =>
        let mj := (SimpleEulerSolver.step dt)^[j] m
        ((natOutEuler dt mj).1, -m.inductance * (natOutEuler dt mj).2)) := by
  rw [SimpleEulerSolver.solve, foldl_const_eq_iterate]
  exact iterate_step_state (natOutEuler dt) _ m

/-- Closed form of the backward-Euler history after `Solve()`. -/
theorem backward_solve_state (dt T : ℚ) (m : LCOscillatorModel) :
    (BackwardEulerSolver.solve dt T m).state =
      m.state ++ (List.range (time_steps dt T).length).map (fun j =>
        let mj := (BackwardEulerSolver.step dt)^[j] m
        ((natOutBackward dt mj).1, -m.inductance * (natOutBackward dt mj).2)) := by
  rw [BackwardEulerSolver.solve, foldl_const_eq_iterate]
  exact iterate_step_state (natOutBackward dt) _ m

/-- Closed form of the Runge-Kutta history after `Solve()`. -/
theorem rk_solve_state (dt T : ℚ) (m : LCOscillatorModel) :
    (SimpleRungeKutta.solve dt T m).state =
      m.state ++ (List.range (time_steps dt T).length).map (fun j =>
        let mj := (SimpleRungeKutta.step dt)^[j] m
        ((natOutRK dt mj).1, -m.inductance * (natOutRK dt mj).2)) := by
  rw [SimpleRungeKutta.solve, foldl_const_eq_iterate]
  exact iterate_step_state (natOutRK dt) _ m

/-- The explicit-Euler natural output vanishes on all-zero histories. -/
theorem natOutEuler_zero (dt : ℚ) (m : LCOscillatorModel)
    (h : ∀ p ∈ m.state, p = ((0 : ℚ), (0 : ℚ))) :
    natOutEuler dt m = (0, 0) := by
  unfold natOutEuler
  rw [get_last_state_y_zero m h, last_equation_y_zero m h]
  norm_num

/-- The backward-Euler natural output vanishes on all-zero histories. -/
theorem natOutBackward_zero (dt : ℚ) (m : LCOscillatorModel)
    (h : ∀ p ∈ m.state, p = ((0 : ℚ), (0 : ℚ))) :
    natOutBackward dt m = (0, 0) := by
  unfold natOutBackward y_2_new_func
  rw [get_last_state_y_zero m h]
  norm_num

/-- The Runge-Kutta natural output vanishes on all-zero histories. -/
theorem natOutRK_zero (dt : ℚ) (m : LCOscillatorModel)
    (h : ∀ p ∈ m.state, p = ((0 : ℚ), (0 : ℚ))) :
    natOutRK dt m = (0, 0) := by
  unfold natOutRK y_new
  rw [get_last_state_y_zero m h]
  norm_num

/-- Computed form of the numpy-float natural view on a fresh model. -/
theorem get_last_state_yF_init (L C i0 v0 : NPFloat) :
    ModelF.get_last_state_y (ModelF.init L C i0 v0) =
      Except.ok (i0, (v0.neg).div L) := rfl

/-- Computed form of the numpy-float derivative term on a fresh model. -/
theorem last_equation_yF_init (L C i0 v0 : NPFloat) :
    ModelF.last_equation_y (ModelF.init L C i0 v0) =
      Except.ok ((i0.neg).div (L.mul C)) := rfl

/-- A finite numerator over a zero denominator yields a non-finite value
(`nan` or a signed infinity), never a finite one. -/
theorem div_fin_zero_not_finite (a : ℚ) :
    (NPFloat.div (NPFloat.fin a) (NPFloat.fin 0)).isFinite = false := by
  simp only [NPFloat.div]
  rw [if_neg (fun h => h rfl)]
  split_ifs <;> rfl

/-- Dividing any numpy-float value — finite, infinite or nan — by a zero
denominator yields a non-finite value. -/
theorem div_by_fin_zero_not_finite (a : NPFloat) :
    (a.div (NPFloat.fin 0)).isFinite = false := by
  cases a with
  | fin q => exact div_fin_zero_not_finite q
  | posInf => decide
  | negInf => decide
  | nan => rfl

/-- Computed form of the numpy-float natural view on any model: the call
always returns a value (its only division goes through `npDiv`, which never
raises). -/
theorem get_last_state_yF (m : ModelF) :
    m.get_last_state_y =
      Except.ok (m.get_last_state.1, (m.get_last_state.2).neg.div m.inductance) := rfl

/-- Computed form of the numpy-float derivative term on any model: the call
always returns a value. -/
theorem last_equation_yF (m : ModelF) :
    m.last_equation_y =
      Except.ok ((m.get_last_state.1).neg.div (m.inductance.mul m.capacitance)) := rfl

end Lemmas

section Claims

/-- Claim C1 (counterexample): with `Δt = 2`, `T = 3` the time grid built by
the solver constructor has 2 points, not `⌊3/2⌋ = 1`, and after `Solve()` on a
fresh model each of the three strategies leaves 3 history entries, not
`⌊3/2⌋ + 1 = 2`. -/
theorem grid_floor_length_counterexample :
    (time_steps 2 3).length ≠ Int.toNat ⌊(3 : ℚ) / 2⌋ ∧
    (SimpleEulerSolver.solve 2 3 (LCOscillatorModel.init 1 1 0 1)).state.length ≠
      Int.toNat ⌊(3 : ℚ) / 2⌋ + 1 ∧
    (BackwardEulerSolver.solve 2 3 (LCOscillatorModel.init 1 1 0 1)).state.length ≠
      Int.toNat ⌊(3 : ℚ) / 2⌋ + 1 ∧
    (SimpleRungeKutta.solve 2 3 (LCOscillatorModel.init 1 1 0 1)).state.length ≠
      Int.toNat ⌊(3 : ℚ) / 2⌋ + 1 := by
  have hfl : Int.toNat ⌊(3 : ℚ) / 2⌋ = 1 := by norm_num
  have hceil : ⌈(3 : ℚ) / 2⌉ = 2 := by
    rw [Int.ceil_eq_iff]
    norm_num
  have hgrid : (time_steps 2 3).length = 2 := by
    rw [time_steps_length, hceil]
    rfl
  have he : (SimpleEulerSolver.solve 2 3 (LCOscillatorModel.init 1 1 0 1)).state.length = 3 := by
    rw [euler_solve_state, List.length_append, List.length_map,
      List.length_range, hgrid]
    rfl
  have hb : (BackwardEulerSolver.solve 2 3 (LCOscillatorModel.init 1 1 0 1)).state.length = 3 := by
    rw [backward_solve_state, List.length_append, List.length_map,
      List.length_range, hgrid]
    rfl
  have hr : (SimpleRungeKutta.solve 2 3 (LCOscillatorModel.init 1 1 0 1)).state.length = 3 := by
    rw [rk_solve_state, List.length_append, List.length_map,
      List.length_range, hgrid]
    rfl
  rw [hfl, hgrid, he, hb, hr]
  refine ⟨?_, ?_, ?_, ?_⟩ <;> decide

/-- Claim C1 (amended): for `Δt > 0` and `T > 0` the time grid has exactly
`⌈T/Δt⌉` points and starts at 0, and after one `Solve()` on a freshly
constructed model the history has exactly `⌈T/Δt⌉ + 1` entries, identically
for all three strategies. -/
theorem grid_and_history_length (dt T L C i0 v0 : ℚ)
    (hdt : 0 < dt) (hT : 0 < T) :
    (time_steps dt T).length = Int.toNat ⌈T / dt⌉ ∧
    (time_steps dt T).head? = some 0 ∧
    (SimpleEulerSolver.solve dt T (LCOscillatorModel.init L C i0 v0)).state.length =
      Int.toNat ⌈T / dt⌉ + 1 ∧
    (BackwardEulerSolver.solve dt T (LCOscillatorModel.init L C i0 v0)).state.length =
      Int.toNat ⌈T / dt⌉ + 1 ∧
    (SimpleRungeKutta.solve dt T (LCOscillatorModel.init L C i0 v0)).state.length =
      Int.toNat ⌈T / dt⌉ + 1 := by
  have hpos : 0 < Int.toNat ⌈T / dt⌉ := by
    rw [Int.lt_toNat]
    exact_mod_cast Int.ceil_pos.mpr (div_pos hT hdt)
  obtain ⟨k, hk⟩ : ∃ k, Int.toNat ⌈T / dt⌉ = k + 1 :=
    ⟨Int.toNat ⌈T / dt⌉ - 1, (Nat.succ_pred_eq_of_pos hpos).symm⟩
  have hhead : (time_steps dt T).head? = some 0 := by
    unfold time_steps arange
    rw [sub_zero, hk, List.range_succ_eq_map]
    norm_num
  have hlen : ∀ out : LCOscillatorModel → ℚ × ℚ,
      ((time_steps dt T).foldl
          (fun acc _ => acc.add_new_state (out acc))
          (LCOscillatorModel.init L C i0 v0)).state.length =
        Int.toNat ⌈T / dt⌉ + 1 := by
    intro out
    rw [foldl_const_eq_iterate, iterate_step_state_length, time_steps_length]
    simp [LCOscillatorModel.init, Nat.add_comm]
  exact ⟨time_steps_length dt T, hhead,
    hlen (natOutEuler dt), hlen (natOutBackward dt), hlen (natOutRK dt)⟩

theorem grid_and_history_length_witness :
    (0 : ℚ) < 1/2 ∧ (0 : ℚ) < 1 ∧
    ((time_steps (1/2) 1).length = Int.toNat ⌈(1 : ℚ) / (1/2)⌉ ∧
     (time_steps (1/2) 1).head? = some 0 ∧
     (SimpleEulerSolver.solve (1/2) 1 (LCOscillatorModel.init 1 1 0 1)).state.length =
       Int.toNat ⌈(1 : ℚ) / (1/2)⌉ + 1 ∧
     (BackwardEulerSolver.solve (1/2) 1 (LCOscillatorModel.init 1 1 0 1)).state.length =
       Int.toNat ⌈(1 : ℚ) / (1/2)⌉ + 1 ∧
     (SimpleRungeKutta.solve (1/2) 1 (LCOscillatorModel.init 1 1 0 1)).state.length =
       Int.toNat ⌈(1 : ℚ) / (1/2)⌉ + 1) := by
  have h1 : (0 : ℚ) < 1/2 := by norm_num
  have h2 : (0 : ℚ) < 1 := by norm_num
  exact ⟨h1, h2, grid_and_history_length (1/2) 1 1 1 0 1 h1 h2⟩

/-- Claim C2: one backward-Euler step appends, in natural coordinates,
`y1_new = a*y1_old - b*y0_old` with `a = 1/(1 + Δt²/(L·C))`, `b = Δt/(L·C)`,
and `y0_new = y0_old + y1_new*Δt` — the new `y1` feeds `y0`'s update. -/
theorem backward_step_natural_update (dt : ℚ) (m : LCOscillatorModel)
    (hL : m.inductance ≠ 0) :
    (BackwardEulerSolver.step dt m).get_last_state_y =
      (m.get_last_state_y.1 +
        ((1 / (1 + dt ^ 2 / (m.inductance * m.capacitance))) * m.get_last_state_y.2 -
          (dt / (m.inductance * m.capacitance)) * m.get_last_state_y.1) * dt,
       (1 / (1 + dt ^ 2 / (m.inductance * m.capacitance))) * m.get_last_state_y.2 -
         (dt / (m.inductance * m.capacitance)) * m.get_last_state_y.1) := by
  show (m.add_new_state (natOutBackward dt m)).get_last_state_y = _
  rw [get_last_state_y_add_new_state m _ hL]
  rfl

theorem backward_step_natural_update_witness :
    (LCOscillatorModel.init 1 1 2 3).inductance ≠ 0 ∧
    (BackwardEulerSolver.step (1/2) (LCOscillatorModel.init 1 1 2 3)).get_last_state_y =
      ((LCOscillatorModel.init 1 1 2 3).get_last_state_y.1 +
        ((1 / (1 + (1/2 : ℚ) ^ 2 /
            ((LCOscillatorModel.init 1 1 2 3).inductance *
             (LCOscillatorModel.init 1 1 2 3).capacitance))) *
            (LCOscillatorModel.init 1 1 2 3).get_last_state_y.2 -
          ((1/2 : ℚ) / ((LCOscillatorModel.init 1 1 2 3).inductance *
             (LCOscillatorModel.init 1 1 2 3).capacitance)) *
            (LCOscillatorModel.init 1 1 2 3).get_last_state_y.1) * (1/2),
       (1 / (1 + (1/2 : ℚ) ^ 2 /
            ((LCOscillatorModel.init 1 1 2 3).inductance *
             (LCOscillatorModel.init 1 1 2 3).capacitance))) *
            (LCOscillatorModel.init 1 1 2 3).get_last_state_y.2 -
         ((1/2 : ℚ) / ((LCOscillatorModel.init 1 1 2 3).inductance *
             (LCOscillatorModel.init 1 1 2 3).capacitance)) *
            (LCOscillatorModel.init 1 1 2 3).get_last_state_y.1) := by
  have h : (LCOscillatorModel.init 1 1 2 3).inductance ≠ 0 := by decide
  exact ⟨h, backward_step_natural_update (1/2) (LCOscillatorModel.init 1 1 2 3) h⟩

/-- Claim C3: one Runge-Kutta step appends, in natural coordinates, the
per-coordinate 4-stage update with the companion coordinate's old value
frozen: for `y0` the stages are built from `y1_old`, and for `y1` from the
frozen value `-y0_old/(L·C)`. -/
theorem rk_step_natural_update (dt : ℚ) (m : LCOscillatorModel)
    (hL : m.inductance ≠ 0) :
    (SimpleRungeKutta.step dt m).get_last_state_y =
      (let y1_old := m.get_last_state_y.2
       let k1 := y1_old
       let k2 := y1_old + dt * k1 / 2
       let k3 := y1_old + dt * k2 / 2
       let k4 := y1_old + dt * k3
       m.get_last_state_y.1 + dt * (k1 + 2 * k2 + 2 * k3 + k4) / 6,
       let f := -m.get_last_state_y.1 / (m.inductance * m.capacitance)
       let k1 := f
       let k2 := f + dt * k1 / 2
       let k3 := f + dt * k2 / 2
       let k4 := f + dt * k3
       m.get_last_state_y.2 + dt * (k1 + 2 * k2 + 2 * k3 + k4) / 6) := by
  show (m.add_new_state (natOutRK dt m)).get_last_state_y = _
  rw [get_last_state_y_add_new_state m _ hL]
  rfl

theorem rk_step_natural_update_witness :
    (LCOscillatorModel.init 1 1 2 3).inductance ≠ 0 ∧
    (SimpleRungeKutta.step (1/2) (LCOscillatorModel.init 1 1 2 3)).get_last_state_y =
      (let y1_old := (LCOscillatorModel.init 1 1 2 3).get_last_state_y.2
       let k1 := y1_old
       let k2 := y1_old + (1/2 : ℚ) * k1 / 2
       let k3 := y1_old + (1/2 : ℚ) * k2 / 2
       let k4 := y1_old + (1/2 : ℚ) * k3
       (LCOscillatorModel.init 1 1 2 3).get_last_state_y.1 +
         (1/2 : ℚ) * (k1 + 2 * k2 + 2 * k3 + k4) / 6,
       let f := -(LCOscillatorModel.init 1 1 2 3).get_last_state_y.1 /
         ((LCOscillatorModel.init 1 1 2 3).inductance *
          (LCOscillatorModel.init 1 1 2 3).capacitance)
       let k1 := f
       let k2 := f + (1/2 : ℚ) * k1 / 2
       let k3 := f + (1/2 : ℚ) * k2 / 2
       let k4 := f + (1/2 : ℚ) * k3
       (LCOscillatorModel.init 1 1 2 3).get_last_state_y.2 +
         (1/2 : ℚ) * (k1 + 2 * k2 + 2 * k3 + k4) / 6) := by
  have h : (LCOscillatorModel.init 1 1 2 3).inductance ≠ 0 := by decide
  exact ⟨h, rk_step_natural_update (1/2) (LCOscillatorModel.init 1 1 2 3) h⟩

/-- Claim C4: one explicit-Euler step appends, in natural coordinates,
exactly `(y0 + y1*Δt, y1 + f*Δt)` with `f = -y0/(L·C)`, both components
computed from old values only. -/
theorem euler_step_natural_update (dt : ℚ) (m : LCOscillatorModel)
    (hL : m.inductance ≠ 0) :
    (SimpleEulerSolver.step dt m).get_last_state_y =
      (m.get_last_state_y.1 + m.get_last_state_y.2 * dt,
       m.get_last_state_y.2 +
         -m.get_last_state_y.1 / (m.inductance * m.capacitance) * dt) := by
  show (m.add_new_state (natOutEuler dt m)).get_last_state_y = _
  rw [get_last_state_y_add_new_state m _ hL]
  rfl

theorem euler_step_natural_update_witness :
    (LCOscillatorModel.init 1 1 2 3).inductance ≠ 0 ∧
    (SimpleEulerSolver.step (1/2) (LCOscillatorModel.init 1 1 2 3)).get_last_state_y =
      ((LCOscillatorModel.init 1 1 2 3).get_last_state_y.1 +
         (LCOscillatorModel.init 1 1 2 3).get_last_state_y.2 * (1/2),
       (LCOscillatorModel.init 1 1 2 3).get_last_state_y.2 +
         -(LCOscillatorModel.init 1 1 2 3).get_last_state_y.1 /
           ((LCOscillatorModel.init 1 1 2 3).inductance *
            (LCOscillatorModel.init 1 1 2 3).capacitance) * (1/2)) := by
  have h : (LCOscillatorModel.init 1 1 2 3).inductance ≠ 0 := by decide
  exact ⟨h, euler_step_natural_update (1/2) (LCOscillatorModel.init 1 1 2 3) h⟩

/-- Claim C5: `AppendState` stores exactly `(y0_new, -L*y1_new)` as the new
last history entry, increases the history length by exactly one, and leaves
every earlier entry and the physical parameters unchanged. -/
theorem add_new_state_contract (m : LCOscillatorModel) (n : ℚ × ℚ) :
    (m.add_new_state n).state = m.state ++ [(n.1, -m.inductance * n.2)] ∧
    (m.add_new_state n).state.length = m.state.length + 1 ∧
    (m.add_new_state n).state.take m.state.length = m.state ∧
    (m.add_new_state n).state.getLastD (0, 0) = (n.1, -m.inductance * n.2) ∧
    (m.add_new_state n).inductance = m.inductance ∧
    (m.add_new_state n).capacitance = m.capacitance := by
  refine ⟨rfl, ?_, ?_, ?_, rfl, rfl⟩
  · simp [LCOscillatorModel.add_new_state]
  · simp [LCOscillatorModel.add_new_state, List.take_left]
  · simp [LCOscillatorModel.add_new_state, List.getLastD_concat]

/-- Claim C6: after any run of any strategy on a fresh model, history entry 0
is the raw pair `(i0, v0)` with no transform applied, and every later entry
is the transform (second component scaled by `-L`) of that step's
natural-coordinate integrator output. -/
theorem history_raw_head_transformed_tail (L C i0 v0 dt T : ℚ) :
    (SimpleEulerSolver.solve dt T (LCOscillatorModel.init L C i0 v0)).state =
      (i0, v0) :: (List.range (time_steps dt T).length).map (fun k =>
        let mk := (SimpleEulerSolver.step dt)^[k] (LCOscillatorModel.init L C i0 v0)
        ((natOutEuler dt mk).1, -L * (natOutEuler dt mk).2)) ∧
    (BackwardEulerSolver.solve dt T (LCOscillatorModel.init L C i0 v0)).state =
      (i0, v0) :: (List.range (time_steps dt T).length).map (fun k =>
        let mk := (BackwardEulerSolver.step dt)^[k] (LCOscillatorModel.init L C i0 v0)
        ((natOutBackward dt mk).1, -L * (natOutBackward dt mk).2)) ∧
    (SimpleRungeKutta.solve dt T (LCOscillatorModel.init L C i0 v0)).state =
      (i0, v0) :: (List.range (time_steps dt T).length).map (fun k =>
        let mk := (SimpleRungeKutta.step dt)^[k] (LCOscillatorModel.init L C i0 v0)
        ((natOutRK dt mk).1, -L * (natOutRK dt mk).2)) := by
  refine ⟨?_, ?_, ?_⟩
  · rw [euler_solve_state]
    rfl
  · rw [backward_solve_state]
    rfl
  · rw [rk_solve_state]
    rfl

/-- Claim C7 (counterexample): on a model constructed with `inductance = 0`
(so `L·C = 0`), both the derivative term and the stored-to-natural transform
return a value (`Except.ok` with an IEEE special value) — nothing is
signalled, contrary to the claimed `DivisionByZero` condition. -/
theorem division_by_zero_signal_counterexample :
    ModelF.last_equation_y
        (ModelF.init (NPFloat.fin 0) (NPFloat.fin 1) (NPFloat.fin 1) (NPFloat.fin 0)) =
      Except.ok NPFloat.negInf ∧
    ModelF.get_last_state_y
        (ModelF.init (NPFloat.fin 0) (NPFloat.fin 1) (NPFloat.fin 1) (NPFloat.fin 0)) =
      Except.ok (NPFloat.fin 1, NPFloat.nan) := by
  rw [last_equation_yF_init, get_last_state_yF_init]
  have hmul : (NPFloat.fin 0).mul (NPFloat.fin 1) = NPFloat.fin 0 := by
    show NPFloat.fin (0 * 1) = NPFloat.fin 0
    norm_num
  rw [hmul]
  have h1 : (NPFloat.fin 1).neg.div (NPFloat.fin 0) = NPFloat.negInf := by
    show NPFloat.div (NPFloat.fin (-1)) (NPFloat.fin 0) = NPFloat.negInf
    decide
  have h2 : (NPFloat.fin 0).neg.div (NPFloat.fin 0) = NPFloat.nan := by
    show NPFloat.div (NPFloat.fin (-0)) (NPFloat.fin 0) = NPFloat.nan
    decide
  rw [h1, h2]
  exact ⟨rfl, rfl⟩

/-- Claim C7 (amended): for every model — whatever its history — whose
parameters satisfy `inductance * capacitance == 0` in the code's own float
arithmetic, neither `DerivativeTerm` nor the stored-to-natural transform
signals an error; under numpy float64 semantics each returns a value.  The
derivative term's value is always non-finite (an IEEE infinity or nan, its
divisor `L·C` being zero); the transform divides only by the inductance, so
when the inductance itself is zero its second component is likewise
non-finite. -/
theorem division_by_zero_returns_nonfinite (m : ModelF)
    (hLC : m.inductance.mul m.capacitance = NPFloat.fin 0) :
    (∃ v : NPFloat, m.last_equation_y = Except.ok v ∧ v.isFinite = false) ∧
    (∃ p : NPFloat × NPFloat, m.get_last_state_y = Except.ok p) ∧
    (m.inductance = NPFloat.fin 0 →
      ∃ w : NPFloat, m.get_last_state_y = Except.ok (m.get_last_state.1, w) ∧
        w.isFinite = false) := by
  refine ⟨⟨(m.get_last_state.1).neg.div (m.inductance.mul m.capacitance),
      last_equation_yF m, ?_⟩,
    ⟨_, get_last_state_yF m⟩, ?_⟩
  · rw [hLC]
    exact div_by_fin_zero_not_finite _
  · intro hL
    refine ⟨(m.get_last_state.2).neg.div m.inductance, get_last_state_yF m, ?_⟩
    rw [hL]
    exact div_by_fin_zero_not_finite _

theorem division_by_zero_returns_nonfinite_witness :
    (ModelF.init (NPFloat.fin 2) (NPFloat.fin 0) (NPFloat.fin 1)
          (NPFloat.fin 3)).inductance.mul
        (ModelF.init (NPFloat.fin 2) (NPFloat.fin 0) (NPFloat.fin 1)
          (NPFloat.fin 3)).capacitance = NPFloat.fin 0 ∧
    ((∃ v : NPFloat,
        (ModelF.init (NPFloat.fin 2) (NPFloat.fin 0) (NPFloat.fin 1)
            (NPFloat.fin 3)).last_equation_y = Except.ok v ∧ v.isFinite = false) ∧
     (∃ p : NPFloat × NPFloat,
        (ModelF.init (NPFloat.fin 2) (NPFloat.fin 0) (NPFloat.fin 1)
            (NPFloat.fin 3)).get_last_state_y = Except.ok p) ∧
     ((ModelF.init (NPFloat.fin 2) (NPFloat.fin 0) (NPFloat.fin 1)
            (NPFloat.fin 3)).inductance = NPFloat.fin 0 →
       ∃ w : NPFloat,
         (ModelF.init (NPFloat.fin 2) (NPFloat.fin 0) (NPFloat.fin 1)
              (NPFloat.fin 3)).get_last_state_y =
           Except.ok ((ModelF.init (NPFloat.fin 2) (NPFloat.fin 0) (NPFloat.fin 1)
              (NPFloat.fin 3)).get_last_state.1, w) ∧
           w.isFinite = false)) := by
  have h : (ModelF.init (NPFloat.fin 2) (NPFloat.fin 0) (NPFloat.fin 1)
          (NPFloat.fin 3)).inductance.mul
        (ModelF.init (NPFloat.fin 2) (NPFloat.fin 0) (NPFloat.fin 1)
          (NPFloat.fin 3)).capacitance = NPFloat.fin 0 := by
    show NPFloat.fin (2 * 0) = NPFloat.fin 0
    norm_num
  exact ⟨h, division_by_zero_returns_nonfinite _ h⟩

/-- Claim C8 (counterexample): constructing a model with `inductance = 0`
succeeds — the object exists with the zero parameter stored and the history
seeded normally; no `InvalidParameter` failure exists in the constructor. -/
theorem construction_validation_counterexample :
    (LCOscillatorModel.init 0 1 2 3).inductance = 0 ∧
    (LCOscillatorModel.init 0 1 2 3).capacitance = 1 ∧
    (LCOscillatorModel.init 0 1 2 3).state = [(2, 3)] := ⟨rfl, rfl, rfl⟩

/-- Claim C8 (amended): construction performs no parameter validation and
never fails: for any parameters (zero included) it stores them verbatim and
seeds the history with the raw initial pair. -/
theorem construction_unvalidated (L C i0 v0 : ℚ) :
    (LCOscillatorModel.init L C i0 v0).inductance = L ∧
    (LCOscillatorModel.init L C i0 v0).capacitance = C ∧
    (LCOscillatorModel.init L C i0 v0).initial_current = i0 ∧
    (LCOscillatorModel.init L C i0 v0).initial_voltage = v0 ∧
    (LCOscillatorModel.init L C i0 v0).state = [(i0, v0)] :=
  ⟨rfl, rfl, rfl, rfl, rfl⟩

/-- Claim C9: starting from `initial_current = 0`, `initial_voltage = 0`
with nonzero parameters, every history entry after each strategy's `Solve()`
is the zero pair — the all-zero state is a fixed point of every step. -/
theorem zero_fixed_point (L C dt T : ℚ) (_hL : L ≠ 0) (_hC : C ≠ 0) :
    (∀ p ∈ (SimpleEulerSolver.solve dt T (LCOscillatorModel.init L C 0 0)).state,
      p = ((0 : ℚ), (0 : ℚ))) ∧
    (∀ p ∈ (BackwardEulerSolver.solve dt T (LCOscillatorModel.init L C 0 0)).state,
      p = ((0 : ℚ), (0 : ℚ))) ∧
    (∀ p ∈ (SimpleRungeKutta.solve dt T (LCOscillatorModel.init L C 0 0)).state,
      p = ((0 : ℚ), (0 : ℚ))) := by
  have hm : ∀ p ∈ (LCOscillatorModel.init L C 0 0).state, p = ((0 : ℚ), (0 : ℚ)) := by
    intro p hp
    simpa [LCOscillatorModel.init] using hp
  exact ⟨foldl_step_zero (natOutEuler dt) (fun mm h => natOutEuler_zero dt mm h) _ _ hm,
    foldl_step_zero (natOutBackward dt) (fun mm h => natOutBackward_zero dt mm h) _ _ hm,
    foldl_step_zero (natOutRK dt) (fun mm h => natOutRK_zero dt mm h) _ _ hm⟩

theorem zero_fixed_point_witness :
    (2 : ℚ) ≠ 0 ∧ (3 : ℚ) ≠ 0 ∧
    ((∀ p ∈ (SimpleEulerSolver.solve (1/2) 1 (LCOscillatorModel.init 2 3 0 0)).state,
        p = ((0 : ℚ), (0 : ℚ))) ∧
     (∀ p ∈ (BackwardEulerSolver.solve (1/2) 1 (LCOscillatorModel.init 2 3 0 0)).state,
        p = ((0 : ℚ), (0 : ℚ))) ∧
     (∀ p ∈ (SimpleRungeKutta.solve (1/2) 1 (LCOscillatorModel.init 2 3 0 0)).state,
        p = ((0 : ℚ), (0 : ℚ)))) := by
  have h2 : (2 : ℚ) ≠ 0 := by norm_num
  have h3 : (3 : ℚ) ≠ 0 := by norm_num
  exact ⟨h2, h3, zero_fixed_point 2 3 (1/2) 1 h2 h3⟩

/-- Claim C10: on a freshly constructed model with `L ≠ 0`, the natural view
is exactly `(i0, -v0/L)` — the first step of any strategy reads the second
natural component as `-v0/L`, not `v0` — and the derivative term is
`-i0/(L·C)`. -/
theorem fresh_model_natural_view (L C i0 v0 : ℚ) (_hL : L ≠ 0) :
    (LCOscillatorModel.init L C i0 v0).get_last_state_y = (i0, -v0 / L) ∧
    (LCOscillatorModel.init L C i0 v0).last_equation_y = -i0 / (L * C) :=
  ⟨rfl, rfl⟩

theorem fresh_model_natural_view_witness :
    (2 : ℚ) ≠ 0 ∧
    ((LCOscillatorModel.init 2 3 5 7).get_last_state_y = (5, -7 / 2) ∧
     (LCOscillatorModel.init 2 3 5 7).last_equation_y = -5 / (2 * 3)) := by
  have h : (2 : ℚ) ≠ 0 := by norm_num
  exact ⟨h, fresh_model_natural_view 2 3 5 7 h⟩

end Claims
